import Mathlib

/-!
Verification of the Coup turn state machine (`pettingzoo_coup`).

Shallow embedding of `card.py`, `action.py`, `player.py` and `state.py`:

* Python `Counter[CARD]` is embedded as an insertion-ordered association
  list `Cnt := List (CARD × Nat)`; dict keys are unique in Python, so the
  embedding states well-formedness (`KeysOk`) where counting arguments
  need it.  `cincr` is `c[k] += 1` (update in place, append if missing),
  `cdecrDel` is `c[k] -= 1` followed by `del c[k]` when the count hits 0
  (all call sites in the source check membership first), `celements` is
  `Counter.elements()` (insertion order, each key repeated count times).
* The frozen `Action` dataclass instances of `action.py` form a fixed
  catalog keyed by unique names, embedded as an enumeration with the
  catalog columns (`type`, `card`, `block`) as functions.
* Mutable `Player` objects linked in a ring become a `Table` (list of
  players sharing one deck); object references become seat indices and
  in-place mutation becomes explicit state passing.
* `np.random.randint` outcomes are passed as explicit arguments; a draw
  returns `none` exactly when the Python call raises.
* Each state class of `state.py` becomes a `GState` constructor and its
  `step` method a function `Table → ... → Option (Table × GState)`,
  `none` marking the paths that raise (`InvalidState`, failed asserts,
  `PlayerError`, `ValueError`).
-/

namespace Coup

/-- The five roles of `card.py` (`CARD`). -/
inductive CARD
  | AMBASSADOR
  | ASSASSIN
  | CAPTAIN
  | CONTESSA
  | DUKE
deriving DecidableEq, Repr

/-- Action type categories (`action.py` `ACT`). -/
inductive ACT
  | SELF
  | TARGET
  | BLOCK
  | CHALLENGE
  | LOSE
deriving DecidableEq, Repr

/-- The fixed catalog of frozen `Action` dataclass instances
(`action.py` `ActionTypes`), in dataclass field order; instances are
identified by their unique `name`. -/
inductive Action
  | LOSE_AMBASSADOR
  | LOSE_ASSASSIN
  | LOSE_CAPTAIN
  | LOSE_CONTESSA
  | LOSE_DUKE
  | CHALLENGE_PASS
  | CHALLENGE_CALL
  | BLOCK_PASS
  | BLOCK_ASSASSINATE
  | BLOCK_FOREIGN_AID
  | BLOCK_STEAL_AMB
  | BLOCK_STEAL_CAP
  | EXCHANGE
  | FOREIGN_AID
  | INCOME
  | TAX
  | ASSASSINATE
  | COUP
  | STEAL
deriving DecidableEq, Repr

/-- The `type` field of each catalog entry. -/
def Action.type : Action → ACT
  | .LOSE_AMBASSADOR | .LOSE_ASSASSIN | .LOSE_CAPTAIN | .LOSE_CONTESSA | .LOSE_DUKE => .LOSE
  | .CHALLENGE_PASS | .CHALLENGE_CALL => .CHALLENGE
  | .BLOCK_PASS | .BLOCK_ASSASSINATE | .BLOCK_FOREIGN_AID
  | .BLOCK_STEAL_AMB | .BLOCK_STEAL_CAP => .BLOCK
  | .EXCHANGE | .FOREIGN_AID | .INCOME | .TAX => .SELF
  | .ASSASSINATE | .COUP | .STEAL => .TARGET

/-- The `card` field of each catalog entry (the bluffable role). -/
def Action.card : Action → Option CARD
  | .LOSE_AMBASSADOR => some .AMBASSADOR
  | .LOSE_ASSASSIN => some .ASSASSIN
  | .LOSE_CAPTAIN => some .CAPTAIN
  | .LOSE_CONTESSA => some .CONTESSA
  | .LOSE_DUKE => some .DUKE
  | .BLOCK_ASSASSINATE => some .CONTESSA
  | .BLOCK_FOREIGN_AID => some .DUKE
  | .BLOCK_STEAL_AMB => some .AMBASSADOR
  | .BLOCK_STEAL_CAP => some .CAPTAIN
  | .EXCHANGE => some .AMBASSADOR
  | .TAX => some .DUKE
  | .ASSASSINATE => some .ASSASSIN
  | .STEAL => some .CAPTAIN
  | _ => none

/-- The `block` field of each catalog entry: the names of the legal block
responses (a tuple of names in the source; names are in bijection with
catalog entries). -/
def Action.block : Action → List Action
  | .FOREIGN_AID => [.BLOCK_PASS, .BLOCK_FOREIGN_AID]
  | .ASSASSINATE => [.BLOCK_PASS, .BLOCK_ASSASSINATE]
  | .STEAL => [.BLOCK_PASS, .BLOCK_STEAL_AMB, .BLOCK_STEAL_CAP]
  | _ => []

/-- Iteration order of `ACTION` (dataclass field order). -/
def ACTION_LIST : List Action :=
  [.LOSE_AMBASSADOR, .LOSE_ASSASSIN, .LOSE_CAPTAIN, .LOSE_CONTESSA, .LOSE_DUKE,
   .CHALLENGE_PASS, .CHALLENGE_CALL,
   .BLOCK_PASS, .BLOCK_ASSASSINATE, .BLOCK_FOREIGN_AID, .BLOCK_STEAL_AMB, .BLOCK_STEAL_CAP,
   .EXCHANGE, .FOREIGN_AID, .INCOME, .TAX, .ASSASSINATE, .COUP, .STEAL]

/-- `Counter[CARD]`: insertion-ordered key/count pairs. -/
abbrev Cnt := List (CARD × Nat)

/-- Dict lookup `c[k]` (0 for a missing key, as on `Counter`). -/
def cget : Cnt → CARD → Nat
  | [], _ => 0
  | p :: rest, k => if p.1 = k then p.2 else cget rest k

/-- Key membership `k in c`. -/
def cmem : Cnt → CARD → Bool
  | [], _ => false
  | p :: rest, k => p.1 = k || cmem rest k

/-- `Counter.total()`. -/
def ctotal : Cnt → Nat
  | [] => 0
  | p :: rest => p.2 + ctotal rest

/-- `Counter.elements()`: keys in insertion order, repeated count times. -/
def celements : Cnt → List CARD
  | [] => []
  | p :: rest => List.replicate p.2 p.1 ++ celements rest

/-- `c[k] += 1`: bump the (unique) entry in place, append if missing. -/
def cincr : Cnt → CARD → Cnt
  | [], k => [(k, 1)]
  | p :: rest, k => if p.1 = k then (p.1, p.2 + 1) :: rest else p :: cincr rest k

/-- `c[k] -= 1; if not c[k]: del c[k]` — every call site in the source
has already established that `k` is present. -/
def cdecrDel : Cnt → CARD → Cnt
  | [], _ => []
  | p :: rest, k =>
    if p.1 = k then (if p.2 - 1 = 0 then rest else (p.1, p.2 - 1) :: rest)
    else p :: cdecrDel rest k

/-- Well-formedness of the Python dict backing a `Counter`: keys unique. -/
def KeysOk (c : Cnt) : Prop := c.Pairwise (fun a b => a.1 ≠ b.1)

/-- All stored counts positive (the source deletes keys that reach 0). -/
def CntPos (c : Cnt) : Prop := ∀ p ∈ c, 0 < p.2

instance (c : Cnt) : Decidable (KeysOk c) := by
  unfold KeysOk
  infer_instance

instance (c : Cnt) : Decidable (CntPos c) := by
  unfold CntPos
  infer_instance

/-- `card.draw(deck)`: pick `cards = list(deck.elements())` and an index
`idx = np.random.randint(0, len(cards) - 1)`; `idx` is the random
outcome, so the possible outcomes are exactly `idx + 1 < cards.length`,
and the call raises `ValueError` whenever `len(cards) - 1 <= 0`. -/
def drawCard (deck : Cnt) (idx : Nat) : Option (CARD × Cnt) :=
  let cards := celements deck
  if idx + 1 < cards.length then
    let card := cards.getD idx CARD.AMBASSADOR
    some (card, cdecrDel deck card)
  else none

/-- Per-seat state of `player.py` `Player` (the `id` string and the `next`
ring pointer are replaced by the seat index in a `Table`). -/
structure Player where
  coins : Int
  cards : Cnt
  block_passed : Bool
  challenge_passed : Bool
  block_challenge_passed : Bool
deriving DecidableEq, Repr

instance : Inhabited Player := ⟨⟨0, [], false, false, false⟩⟩

/-- `Player.alive`: `cards.total() > 0`. -/
def Player.aliveB (p : Player) : Bool := decide (0 < ctotal p.cards)

/-- `Player.draw`: draw from the shared deck, add the card to the hand. -/
def Player.draw (p : Player) (deck : Cnt) (idx : Nat) : Option (Player × Cnt) :=
  match drawCard deck idx with
  | some (card, deck2) => some ({ p with cards := cincr p.cards card }, deck2)
  | none => none

/-- `Player.putback`: `assert card in self.cards`, remove one copy from
the hand, return it to the deck (`none` = failed assert, no mutation). -/
def Player.putback (p : Player) (deck : Cnt) (card : CARD) : Option (Player × Cnt) :=
  if cmem p.cards card then
    some ({ p with cards := cdecrDel p.cards card }, cincr deck card)
  else none

/-- `Player.lose`: `assert card in self.cards`, remove one copy from the
hand permanently (the deck is untouched). -/
def Player.lose (p : Player) (card : CARD) : Option Player :=
  if cmem p.cards card then some { p with cards := cdecrDel p.cards card }
  else none

/-- The table: the fixed seating ring (`env.py` links every player to the
next seat) and the single shared deck. -/
structure Table where
  players : List Player
  deck : Cnt
deriving DecidableEq, Repr

/-- Seat lookup (states hold references to live players; a reference is
always in range in the source). -/
def pget (t : Table) (i : Nat) : Player := t.players.getD i default

/-- In-place mutation of one player. -/
def updPlayer (t : Table) (i : Nat) (f : Player → Player) : Table :=
  ⟨t.players.set i (f (pget t i)), t.deck⟩

/-- `player.coins += ...` and friends. -/
def updCoins (t : Table) (i : Nat) (f : Int → Int) : Table :=
  updPlayer t i (fun p => { p with coins := f p.coins })

/-- `Player.draw` lifted to the table (deck shared by reference). -/
def tdraw (t : Table) (i : Nat) (idx : Nat) : Option Table :=
  match (pget t i).draw t.deck idx with
  | some (p, d) => some ⟨t.players.set i p, d⟩
  | none => none

/-- `Player.putback` lifted to the table. -/
def tputback (t : Table) (i : Nat) (card : CARD) : Option Table :=
  match (pget t i).putback t.deck card with
  | some (p, d) => some ⟨t.players.set i p, d⟩
  | none => none

/-- `Player.lose` lifted to the table. -/
def tlose (t : Table) (i : Nat) (card : CARD) : Option Table :=
  match (pget t i).lose card with
  | some p => some ⟨t.players.set i p, t.deck⟩
  | none => none

/-- Ring offsets `1, …, n-1` walked by `Player.enum` / `next_alive`
(`i = 1; player = self.next; while player is not None and player != self`). -/
def ringOffsets (n : Nat) : List Nat := (List.range (n - 1)).map (· + 1)

/-- `Player.next_alive`: the first alive seat strictly after `i` in ring
order (`none` = `PlayerError("No other alive players found")`). -/
def next_alive (t : Table) (i : Nat) : Option Nat :=
  (ringOffsets t.players.length).findSome? (fun j =>
    let k := (i + j) % t.players.length
    if (pget t k).aliveB then some k else none)

/-- `Player.enum(skip_dead=True, skip_self=True)`: the relative offsets of
the alive other players, in ring order. -/
def aliveOthers (t : Table) (i : Nat) : List Nat :=
  (ringOffsets t.players.length).filter
    (fun j => (pget t ((i + j) % t.players.length)).aliveB)

/-- `Player.enum()` with no skips: all seats starting at `i`, ring order. -/
def enumSeats (t : Table) (i : Nat) : List Nat :=
  (List.range t.players.length).map (fun j => (i + j) % t.players.length)

/-- Number of alive players at the table. -/
def aliveCount (t : Table) : Nat := (t.players.filter Player.aliveB).length

/-- `state.py` `ActInfo` (player references become seat indices). -/
structure ActInfo where
  actor : Nat
  action : Action
  target : Nat
deriving DecidableEq, Repr

/-- The `type` literal of a `ChallengeInfo` (`"action"` or `"block"`). -/
inductive ChlType
  | action
  | block
deriving DecidableEq, Repr

/-- `state.py` `ChallengeInfo`. -/
structure ChallengeInfo where
  type : ChlType
  challenger : Nat
  loser : Nat
deriving DecidableEq, Repr

/-- `state.py` `BlockInfo`. -/
structure BlockInfo where
  blocker : Nat
  action : Action
deriving DecidableEq, Repr

/-- The tagged union of turn states (`state.py` `Any`), each constructor
carrying exactly the fields of the corresponding dataclass. -/
inductive GState
  | start (player : Nat)
  | challenge (player : Nat) (act : ActInfo)
  | challengeResolve (player : Nat) (act : ActInfo) (challenge : ChallengeInfo)
  | foreignAidBlock (player : Nat) (act : ActInfo) (challenge : Option ChallengeInfo)
  | targetBlock (player : Nat) (act : ActInfo) (challenge : Option ChallengeInfo)
  | blockChallenge (player : Nat) (block : BlockInfo) (act : ActInfo)
      (challenge : Option ChallengeInfo)
  | blockChallengeResolve (player : Nat) (block : BlockInfo)
      (block_challenge : ChallengeInfo) (act : ActInfo) (challenge : Option ChallengeInfo)
  | actionResolve (player : Nat) (act : ActInfo) (challenge : Option ChallengeInfo)
      (block : Option BlockInfo) (block_challenge : Option ChallengeInfo)
  | exchangeResolve (player : Nat) (act : ActInfo) (challenge : Option ChallengeInfo)
  | exchangeTwoResolve (player : Nat) (act : ActInfo) (challenge : Option ChallengeInfo)
  | endTurn (act : ActInfo) (challenge : Option ChallengeInfo)
      (block : Option BlockInfo) (block_challenge : Option ChallengeInfo)
  | gameOver
deriving DecidableEq, Repr

/-- `resolve_steal`: `amount = min(2, target.coins)`, actor gains it,
target loses it. -/
def resolve_steal (t : Table) (act : ActInfo) : Table :=
  let amount := min 2 (pget t act.target).coins
  let t1 := updCoins t act.actor (fun c => c + amount)
  updCoins t1 act.target (fun c => c - amount)

/-- `observe_challenge` for a present `ChallengeInfo`: the pass flags of
every seat (the `challenge_passed` flags for an action challenge, the
`block_challenge_passed` flags for a block challenge), then the
challenger and loser one-hot segments, all in `player.enum()` order. -/
def observe_challenge (t : Table) (chl : ChallengeInfo) (i : Nat) : List Bool :=
  (match chl.type with
   | .action => (enumSeats t i).map (fun j => (pget t j).challenge_passed)
   | .block => (enumSeats t i).map (fun j => (pget t j).block_challenge_passed))
  ++ (enumSeats t i).map (fun j => chl.challenger == j)
  ++ (enumSeats t i).map (fun j => chl.loser == j)

/-- `Start.action_mask`: Coup targets for `coins >= 7` (returned alone
when `coins >= 10`), then Assassinate/Steal targets, then the SELF
actions of the catalog. -/
def startActionMask (t : Table) (i : Nat) : List (Action × Nat) :=
  let p := pget t i
  let n := t.players.length
  let coup := (aliveOthers t i).map (fun j => (Action.COUP, j))
  if 7 ≤ p.coins ∧ 10 ≤ p.coins then coup
  else
    (if 7 ≤ p.coins then coup else [])
    ++ (aliveOthers t i).flatMap (fun j =>
        (if 3 ≤ p.coins then [(Action.ASSASSINATE, j)] else [])
        ++ (if 0 < (pget t ((i + j) % n)).coins then [(Action.STEAL, j)] else []))
    ++ (ACTION_LIST.filter (fun a => a.type == ACT.SELF)).map (fun a => (a, 0))

/-- `Start.step`. -/
def stepStart (t : Table) (i : Nat) (a : Action) (tgt : Nat) :
    Option (Table × GState) :=
  let act : ActInfo := ⟨i, a, tgt⟩
  if a = .INCOME then
    some (updCoins t i (fun c => c + 1), .endTurn act none none none)
  else if a = .FOREIGN_AID then
    match next_alive t i with
    | some j => some (t, .foreignAidBlock j act none)
    | none => none
  else if a = .COUP then
    some (updCoins t i (fun c => c - 7), .actionResolve tgt act none none none)
  else
    let t1 := if a = .ASSASSINATE then updCoins t i (fun c => c - 3) else t
    if (a.card).isSome then
      match next_alive t1 i with
      | some j => some (t1, .challenge j act)
      | none => none
    else none

/-- `Challenge.step`: `r1 r2` are the random indices of the draws the
branch may perform (the proof redraw, or the two Exchange draws). -/
def stepChallenge (t : Table) (p : Nat) (act : ActInfo) (a : Action)
    (r1 r2 : Nat) : Option (Table × GState) :=
  if a = .CHALLENGE_PASS then
    let t1 := updPlayer t p (fun q => { q with challenge_passed := true })
    match next_alive t1 p with
    | none => none
    | some j =>
      if j = act.actor then
        if act.action = .EXCHANGE then
          match tdraw t1 act.actor r1 with
          | none => none
          | some t2 =>
            match tdraw t2 act.actor r2 with
            | none => none
            | some t3 => some (t3, .exchangeResolve act.actor act none)
        else if act.action = .TAX then
          some (updCoins t1 act.actor (fun c => c + 3), .endTurn act none none none)
        else if act.action.block ≠ [] then
          some (t1, .targetBlock act.target act none)
        else none
      else some (t1, .challenge j act)
  else if a = .CHALLENGE_CALL then
    match act.action.card with
    | none => none
    | some card =>
      if cget (pget t act.actor).cards card ≠ 0 then
        match tputback t act.actor card with
        | none => none
        | some t1 =>
          match tdraw t1 act.actor r1 with
          | none => none
          | some t2 => some (t2, .challengeResolve p act ⟨.action, p, p⟩)
      else some (t, .challengeResolve act.actor act ⟨.action, p, act.actor⟩)
  else none

/-- `ChallengeResolve.step`. -/
def stepChallengeResolve (t : Table) (p : Nat) (act : ActInfo)
    (chl : ChallengeInfo) (a : Action) (r1 r2 : Nat) : Option (Table × GState) :=
  match a.card with
  | none => none
  | some card =>
    match tlose t p card with
    | none => none
    | some t1 =>
      if chl.loser = act.actor then
        some (t1, .endTurn act (some chl) none none)
      else if act.action = .TAX then
        some (updCoins t1 act.actor (fun c => c + 3), .endTurn act (some chl) none none)
      else if act.action = .EXCHANGE then
        match tdraw t1 act.actor r1 with
        | none => none
        | some t2 =>
          match tdraw t2 act.actor r2 with
          | none => none
          | some t3 => some (t3, .exchangeResolve act.actor act none)
      else if act.action = .STEAL ∧ ¬ (pget t1 act.target).aliveB then
        some (resolve_steal t1 act, .endTurn act (some chl) none none)
      else if act.action = .ASSASSINATE ∧ ¬ (pget t1 act.target).aliveB then
        some (t1, .endTurn act (some chl) none none)
      else if act.action.block ≠ [] then
        some (t1, .targetBlock act.target act none)
      else none

/-- `ForeignAidBlock.step`. -/
def stepForeignAidBlock (t : Table) (p : Nat) (act : ActInfo)
    (chl : Option ChallengeInfo) (a : Action) : Option (Table × GState) :=
  if a = .BLOCK_PASS then
    let t1 := updPlayer t p (fun q => { q with block_passed := true })
    match next_alive t1 p with
    | none => none
    | some j =>
      if j = act.actor then
        some (updCoins t1 act.actor (fun c => c + 2), .endTurn act chl none none)
      else some (t1, .foreignAidBlock j act chl)
  else if a = .BLOCK_FOREIGN_AID then
    some (t, .blockChallenge p ⟨p, .BLOCK_FOREIGN_AID⟩ act chl)
  else none

/-- `TargetBlock.step` (any non-`BLOCK_PASS` move is recorded as the
declared block, as in the source's `else` branch). -/
def stepTargetBlock (t : Table) (p : Nat) (act : ActInfo)
    (chl : Option ChallengeInfo) (a : Action) : Option (Table × GState) :=
  if a = .BLOCK_PASS then
    let t1 := updPlayer t p (fun q => { q with block_passed := true })
    if act.action = .STEAL then
      some (resolve_steal t1 act, .endTurn act chl none none)
    else if act.action = .ASSASSINATE then
      some (t1, .actionResolve act.target act chl none none)
    else none
  else
    some (t, .blockChallenge p ⟨p, a⟩ act chl)

/-- `BlockChallenge.step` (note: the pass branch sets `challenge_passed`,
exactly as the source does). -/
def stepBlockChallenge (t : Table) (p : Nat) (blk : BlockInfo) (act : ActInfo)
    (chl : Option ChallengeInfo) (a : Action) (r1 : Nat) : Option (Table × GState) :=
  if a = .CHALLENGE_PASS then
    let t1 := updPlayer t p (fun q => { q with challenge_passed := true })
    match next_alive t1 p with
    | none => none
    | some j =>
      if j = act.actor then
        some (t1, .endTurn act chl (some blk) none)
      else some (t1, .blockChallenge j blk act chl)
  else if a = .CHALLENGE_CALL then
    match blk.action.card with
    | none => none
    | some card =>
      if cget (pget t blk.blocker).cards card ≠ 0 then
        match tputback t blk.blocker card with
        | none => none
        | some t1 =>
          match tdraw t1 blk.blocker r1 with
          | none => none
          | some t2 =>
            some (t2, .blockChallengeResolve p blk ⟨.block, p, p⟩ act chl)
      else
        some (t, .blockChallengeResolve blk.blocker blk ⟨.block, p, blk.blocker⟩ act chl)
  else none

/-- `BlockChallengeResolve.step`. -/
def stepBlockChallengeResolve (t : Table) (p : Nat) (blk : BlockInfo)
    (bchl : ChallengeInfo) (act : ActInfo) (chl : Option ChallengeInfo)
    (a : Action) : Option (Table × GState) :=
  match a.card with
  | none => none
  | some card =>
    match tlose t p card with
    | none => none
    | some t1 =>
      if bchl.loser = bchl.challenger then
        some (t1, .endTurn act chl (some blk) (some bchl))
      else if act.action = .FOREIGN_AID then
        some (updCoins t1 act.actor (fun c => c + 2),
              .endTurn act chl (some blk) (some bchl))
      else if act.action = .STEAL then
        some (resolve_steal t1 act, .endTurn act chl (some blk) (some bchl))
      else if act.action = .ASSASSINATE then
        if ¬ (pget t1 act.target).aliveB then
          some (t1, .endTurn act chl (some blk) (some bchl))
        else
          some (t1, .actionResolve act.target act chl (some blk) (some bchl))
      else none

/-- `ActionResolve.step`. -/
def stepActionResolve (t : Table) (p : Nat) (act : ActInfo)
    (chl : Option ChallengeInfo) (blk : Option BlockInfo)
    (bchl : Option ChallengeInfo) (a : Action) : Option (Table × GState) :=
  match a.card with
  | none => none
  | some card =>
    match tlose t p card with
    | none => none
    | some t1 => some (t1, .endTurn act chl blk bchl)

/-- `ExchangeResolve.step`. -/
def stepExchangeResolve (t : Table) (p : Nat) (act : ActInfo)
    (chl : Option ChallengeInfo) (a : Action) : Option (Table × GState) :=
  match a.card with
  | none => none
  | some card =>
    match tputback t p card with
    | none => none
    | some t1 => some (t1, .exchangeTwoResolve p act chl)

/-- `ExchangeTwoResolve.step`. -/
def stepExchangeTwoResolve (t : Table) (p : Nat) (act : ActInfo)
    (chl : Option ChallengeInfo) (a : Action) : Option (Table × GState) :=
  match a.card with
  | none => none
  | some card =>
    match tputback t p card with
    | none => none
    | some t1 => some (t1, .endTurn act chl none none)

/-- The combined transition function over all turn states: `EndTurn.step`
raises `NotImplementedError` (`none`); `GameOver.step` returns itself. -/
def stepState (t : Table) (s : GState) (a : Action) (tgt : Nat) (r1 r2 : Nat) :
    Option (Table × GState) :=
  match s with
  | .start i => stepStart t i a tgt
  | .challenge p act => stepChallenge t p act a r1 r2
  | .challengeResolve p act chl => stepChallengeResolve t p act chl a r1 r2
  | .foreignAidBlock p act chl => stepForeignAidBlock t p act chl a
  | .targetBlock p act chl => stepTargetBlock t p act chl a
  | .blockChallenge p blk act chl => stepBlockChallenge t p blk act chl a r1
  | .blockChallengeResolve p blk bchl act chl =>
    stepBlockChallengeResolve t p blk bchl act chl a
  | .actionResolve p act chl blk bchl => stepActionResolve t p act chl blk bchl a
  | .exchangeResolve p act chl => stepExchangeResolve t p act chl a
  | .exchangeTwoResolve p act chl => stepExchangeTwoResolve t p act chl a
  | .endTurn _ _ _ _ => none
  | .gameOver => some (t, .gameOver)

/-- Total number of copies of role `r` held across all hands. -/
def handsSum (t : Table) (r : CARD) : Nat :=
  (t.players.map (fun p => cget p.cards r)).sum

/-- The conserved quantity of the spec: deck copies of `r`, plus held
copies of `r`, plus the running count `lost r` of copies of `r` removed
by `Player.lose`. -/
def totalQty (t : Table) (lost : CARD → Nat) (r : CARD) : Nat :=
  cget t.deck r + handsSum t r + lost r

/-- Record one more lost copy of role `c`. -/
def bump (lost : CARD → Nat) (c : CARD) : CARD → Nat :=
  fun r => if r = c then lost r + 1 else lost r

/-! Concrete game positions used to evaluate the transition functions. -/

/-- Actor holding one Captain; target/challenger holding one Contessa and
3 coins; Duke-only deck. -/
def c1t : Table :=
  ⟨[⟨2, [(CARD.CAPTAIN, 1)], false, false, false⟩,
    ⟨3, [(CARD.CONTESSA, 1)], false, false, false⟩],
   [(CARD.DUKE, 3)]⟩

def c1act : ActInfo := ⟨0, .STEAL, 1⟩

def c1chl : ChallengeInfo := ⟨.action, 1, 1⟩

/-- Three players for the block-challenge steal path: actor 0, blocker 1
(the steal target, holding no Ambassador), challenger 2. -/
def c1bt : Table :=
  ⟨[⟨2, [(CARD.CAPTAIN, 1)], false, false, false⟩,
    ⟨1, [(CARD.CONTESSA, 2)], false, false, false⟩,
    ⟨2, [(CARD.DUKE, 1)], false, false, false⟩],
   [(CARD.DUKE, 3)]⟩

def c1blk : BlockInfo := ⟨1, .BLOCK_STEAL_AMB⟩

def c1bchl : ChallengeInfo := ⟨.block, 2, 1⟩

/-- A 10-coin player facing one alive and one eliminated opponent. -/
def c2t : Table :=
  ⟨[⟨10, [(CARD.DUKE, 1)], false, false, false⟩,
    ⟨2, [(CARD.DUKE, 1)], false, false, false⟩,
    ⟨0, [], false, false, false⟩],
   [(CARD.CAPTAIN, 3)]⟩

/-- Three alive players; seat 1 blocks seat 0's Foreign Aid. -/
def c3t : Table :=
  ⟨[⟨2, [(CARD.DUKE, 1)], false, false, false⟩,
    ⟨2, [(CARD.CONTESSA, 1)], false, false, false⟩,
    ⟨2, [(CARD.CAPTAIN, 1)], false, false, false⟩],
   [(CARD.DUKE, 3)]⟩

def c3act : ActInfo := ⟨0, .FOREIGN_AID, 0⟩

/-- A non-empty deck holding a single card. -/
def c4deck1 : Cnt := [(CARD.DUKE, 1)]

/-- A two-card deck whose last element (the Duke) can never be drawn. -/
def c4deck2 : Cnt := [(CARD.AMBASSADOR, 1), (CARD.DUKE, 1)]

/-- A small table for exercising draw/putback/lose conservation. -/
def c5t : Table :=
  ⟨[⟨2, [(CARD.DUKE, 2)], false, false, false⟩,
    ⟨2, [(CARD.CONTESSA, 1), (CARD.DUKE, 1)], false, false, false⟩],
   [(CARD.CAPTAIN, 2), (CARD.DUKE, 1)]⟩

/-- Actor 0 truly holds the Duke it claims for Tax; the deck holds only
Ambassadors, so the proof redraw must change the actor's roles. -/
def c6t : Table :=
  ⟨[⟨2, [(CARD.DUKE, 1), (CARD.CONTESSA, 1)], false, false, false⟩,
    ⟨2, [(CARD.CAPTAIN, 1)], false, false, false⟩],
   [(CARD.AMBASSADOR, 2)]⟩

def c6act : ActInfo := ⟨0, .TAX, 0⟩

/-- Steal target with a single coin. -/
def c7t : Table :=
  ⟨[⟨2, [(CARD.CAPTAIN, 1)], false, false, false⟩,
    ⟨1, [(CARD.DUKE, 1)], false, false, false⟩],
   [(CARD.DUKE, 3)]⟩

def c7act : ActInfo := ⟨0, .STEAL, 1⟩

/-- Two players, the blocker about to lose their last card: after the
loss a single player remains alive. -/
def c8t : Table :=
  ⟨[⟨0, [(CARD.ASSASSIN, 1)], false, false, false⟩,
    ⟨2, [(CARD.CONTESSA, 1)], false, false, false⟩],
   [(CARD.DUKE, 3)]⟩

def c8s : GState :=
  .blockChallengeResolve 1 ⟨1, .BLOCK_ASSASSINATE⟩ ⟨.block, 0, 1⟩ ⟨0, .ASSASSINATE, 1⟩ none

def c8t1 : Table :=
  ⟨[⟨0, [(CARD.ASSASSIN, 1)], false, false, false⟩,
    ⟨2, [], false, false, false⟩],
   [(CARD.DUKE, 3)]⟩

def c8s1 : GState :=
  .endTurn ⟨0, .ASSASSINATE, 1⟩ none (some ⟨1, .BLOCK_ASSASSINATE⟩) (some ⟨.block, 0, 1⟩)

/-- An empty table (enough to exercise the `GameOver` self-loop). -/
def sampleTable : Table := ⟨[], []⟩

/-- Three alive players used for the pass-flag evaluations. -/
def c9t : Table :=
  ⟨[⟨2, [(CARD.DUKE, 1)], false, false, false⟩,
    ⟨2, [(CARD.CONTESSA, 1)], false, false, false⟩,
    ⟨2, [(CARD.CAPTAIN, 1)], false, false, false⟩],
   [(CARD.DUKE, 3)]⟩

def c9act : ActInfo := ⟨0, .FOREIGN_AID, 0⟩

def c9blk : BlockInfo := ⟨1, .BLOCK_FOREIGN_AID⟩

/-- `c9t` after seat 1 passes in the block-challenge round. -/
def c9t1 : Table :=
  ⟨[⟨2, [(CARD.DUKE, 1)], false, false, false⟩,
    ⟨2, [(CARD.CONTESSA, 1)], false, true, false⟩,
    ⟨2, [(CARD.CAPTAIN, 1)], false, false, false⟩],
   [(CARD.DUKE, 3)]⟩

def c9steal : ActInfo := ⟨0, .STEAL, 1⟩

/-- A hand with a Duke and two Contessas next to a one-card deck. -/
def c10p : Player := ⟨2, [(CARD.DUKE, 1), (CARD.CONTESSA, 2)], false, false, false⟩

def c10deck : Cnt := [(CARD.CAPTAIN, 1)]

/-- `c1t` after the target loses their last card. -/
def c1mid : Table :=
  ⟨[⟨2, [(CARD.CAPTAIN, 1)], false, false, false⟩,
    ⟨3, [], false, false, false⟩],
   [(CARD.DUKE, 3)]⟩

/-- `c1mid` after the steal has been resolved against the dead target. -/
def c1after : Table :=
  ⟨[⟨4, [(CARD.CAPTAIN, 1)], false, false, false⟩,
    ⟨1, [], false, false, false⟩],
   [(CARD.DUKE, 3)]⟩

/-- `c1bt` after the blocker loses one of their two cards. -/
def c1bmid : Table :=
  ⟨[⟨2, [(CARD.CAPTAIN, 1)], false, false, false⟩,
    ⟨1, [(CARD.CONTESSA, 1)], false, false, false⟩,
    ⟨2, [(CARD.DUKE, 1)], false, false, false⟩],
   [(CARD.DUKE, 3)]⟩

/-- `c5t` after seat 0 draws (random index 0: the first Captain). -/
def c5d : Table :=
  ⟨[⟨2, [(CARD.DUKE, 2), (CARD.CAPTAIN, 1)], false, false, false⟩,
    ⟨2, [(CARD.CONTESSA, 1), (CARD.DUKE, 1)], false, false, false⟩],
   [(CARD.CAPTAIN, 1), (CARD.DUKE, 1)]⟩

/-- `c5t` after seat 1 puts their Contessa back. -/
def c5pb : Table :=
  ⟨[⟨2, [(CARD.DUKE, 2)], false, false, false⟩,
    ⟨2, [(CARD.DUKE, 1)], false, false, false⟩],
   [(CARD.CAPTAIN, 2), (CARD.DUKE, 1), (CARD.CONTESSA, 1)]⟩

/-- `c5t` after seat 0 loses one Duke. -/
def c5l : Table :=
  ⟨[⟨2, [(CARD.DUKE, 1)], false, false, false⟩,
    ⟨2, [(CARD.CONTESSA, 1), (CARD.DUKE, 1)], false, false, false⟩],
   [(CARD.CAPTAIN, 2), (CARD.DUKE, 1)]⟩

/-- `c6t` after the actor proves the Duke: putback plus redraw (random
index 0 yields an Ambassador). -/
def c6t2 : Table :=
  ⟨[⟨2, [(CARD.CONTESSA, 1), (CARD.AMBASSADOR, 1)], false, false, false⟩,
    ⟨2, [(CARD.CAPTAIN, 1)], false, false, false⟩],
   [(CARD.AMBASSADOR, 1), (CARD.DUKE, 1)]⟩

/-- A Tax declaration by seat 0 of `c9t`. -/
def c9tax : ActInfo := ⟨0, .TAX, 0⟩

/-- `c9t` after seat 1 passes in a block round. -/
def c9t1b : Table :=
  ⟨[⟨2, [(CARD.DUKE, 1)], false, false, false⟩,
    ⟨2, [(CARD.CONTESSA, 1)], true, false, false⟩,
    ⟨2, [(CARD.CAPTAIN, 1)], false, false, false⟩],
   [(CARD.DUKE, 3)]⟩

/-- `c9t` after the steal target passes in `TargetBlock` and the steal
resolves. -/
def c9tb2 : Table :=
  ⟨[⟨4, [(CARD.DUKE, 1)], false, false, false⟩,
    ⟨0, [(CARD.CONTESSA, 1)], true, false, false⟩,
    ⟨2, [(CARD.CAPTAIN, 1)], false, false, false⟩],
   [(CARD.DUKE, 3)]⟩

/-! Helper lemmas about the `Counter` embedding. -/

theorem cget_cincr_self (c : Cnt) (k : CARD) : cget (cincr c k) k = cget c k + 1 := by
  induction c with
  | nil => simp [cincr, cget]
  | cons p rest ih =>
    by_cases h : p.1 = k
    · simp [cincr, cget, h]
    · simp [cincr, cget, h, ih]

theorem cget_cincr_ne (c : Cnt) (k k2 : CARD) (h : k2 ≠ k) :
    cget (cincr c k) k2 = cget c k2 := by
  induction c with
  | nil => simp [cincr, cget, Ne.symm h]
  | cons p rest ih =>
    by_cases hp : p.1 = k
    · simp [cincr, cget, hp, Ne.symm h]
    · by_cases hp2 : p.1 = k2
      · simp [cincr, cget, hp, hp2, h]
      · simp [cincr, cget, hp, hp2, ih]

theorem ctotal_cincr (c : Cnt) (k : CARD) : ctotal (cincr c k) = ctotal c + 1 := by
  induction c with
  | nil => simp [cincr, ctotal]
  | cons p rest ih =>
    by_cases h : p.1 = k
    · simp [cincr, ctotal, h]; omega
    · simp [cincr, ctotal, h, ih]; omega

theorem ctotal_cdecrDel (c : Cnt) (k : CARD) (h : cget c k ≠ 0) :
    ctotal (cdecrDel c k) + 1 = ctotal c := by
  induction c with
  | nil => simp [cget] at h
  | cons p rest ih =>
    by_cases hp : p.1 = k
    · have hc : cget (p :: rest) k = p.2 := by simp [cget, hp]
      rw [hc] at h
      by_cases hz : p.2 - 1 = 0
      · simp [cdecrDel, hp, hz, ctotal]; omega
      · simp [cdecrDel, hp, hz, ctotal]; omega
    · have hc : cget (p :: rest) k = cget rest k := by simp [cget, hp]
      rw [hc] at h
      simp [cdecrDel, hp, ctotal, ih h]; omega

theorem cget_eq_zero_of_forall_ne (c : Cnt) (k : CARD)
    (h : ∀ p ∈ c, p.1 ≠ k) : cget c k = 0 := by
  induction c with
  | nil => simp [cget]
  | cons p rest ih =>
    have hp := h p (by simp)
    simp [cget, hp]
    exact ih (fun q hq => h q (by simp [hq]))

theorem cget_cdecrDel_self (c : Cnt) (k : CARD) (hk : KeysOk c)
    (h : cget c k ≠ 0) : cget (cdecrDel c k) k + 1 = cget c k := by
  induction c with
  | nil => simp [cget] at h
  | cons p rest ih =>
    rw [KeysOk, List.pairwise_cons] at hk
    by_cases hp : p.1 = k
    · have hc : cget (p :: rest) k = p.2 := by simp [cget, hp]
      rw [hc] at h ⊢
      by_cases hz : p.2 - 1 = 0
      · have : cget rest k = 0 := by
          apply cget_eq_zero_of_forall_ne
          intro q hq
          rw [← hp]
          exact fun hh => hk.1 q hq hh.symm
        simp [cdecrDel, hp, hz, this]
        omega
      · simp [cdecrDel, hp, hz, cget]
        omega
    · have hc : cget (p :: rest) k = cget rest k := by simp [cget, hp]
      rw [hc] at h ⊢
      simp [cdecrDel, hp, cget, ih hk.2 h]

theorem cget_cdecrDel_ne (c : Cnt) (k k2 : CARD) (h : k2 ≠ k) :
    cget (cdecrDel c k) k2 = cget c k2 := by
  induction c with
  | nil => simp [cdecrDel]
  | cons p rest ih =>
    by_cases hp : p.1 = k
    · by_cases hz : p.2 - 1 = 0
      · simp [cdecrDel, hp, hz, cget, Ne.symm h]
      · simp [cdecrDel, hp, hz, cget, Ne.symm h]
    · by_cases hp2 : p.1 = k2
      · simp [cdecrDel, hp, cget, hp2, h]
      · simp [cdecrDel, hp, cget, hp2, ih]

theorem cmem_of_cget_ne_zero (c : Cnt) (k : CARD) (h : cget c k ≠ 0) :
    cmem c k = true := by
  induction c with
  | nil => simp [cget] at h
  | cons p rest ih =>
    by_cases hp : p.1 = k
    · simp [cmem, hp]
    · have hc : cget (p :: rest) k = cget rest k := by simp [cget, hp]
      rw [hc] at h
      simp [cmem, hp, ih h]

theorem cget_pos_of_cmem (c : Cnt) (k : CARD) (hpos : CntPos c)
    (h : cmem c k = true) : 0 < cget c k := by
  induction c with
  | nil => simp [cmem] at h
  | cons p rest ih =>
    by_cases hp : p.1 = k
    · have := hpos p (by simp)
      simp [cget, hp]
      exact this
    · simp [cmem, hp] at h
      have := ih (fun q hq => hpos q (by simp [hq])) h
      simp [cget, hp]
      exact this

theorem mem_celements_key (c : Cnt) (x : CARD) (h : x ∈ celements c) :
    ∃ q ∈ c, q.1 = x := by
  induction c with
  | nil => simp [celements] at h
  | cons p rest ih =>
    rw [celements, List.mem_append] at h
    rcases h with h | h
    · rw [List.mem_replicate] at h
      exact ⟨p, by simp, h.2.symm⟩
    · obtain ⟨q, hq, hqx⟩ := ih h
      exact ⟨q, by simp [hq], hqx⟩

theorem cget_pos_of_mem_celements (c : Cnt) (x : CARD) (hk : KeysOk c)
    (h : x ∈ celements c) : 0 < cget c x := by
  induction c with
  | nil => simp [celements] at h
  | cons p rest ih =>
    rw [KeysOk, List.pairwise_cons] at hk
    rw [celements, List.mem_append] at h
    rcases h with h | h
    · rw [List.mem_replicate] at h
      simp [cget, h.2.symm]
      omega
    · by_cases hp : p.1 = x
      · obtain ⟨q, hq, hqx⟩ := mem_celements_key rest x h
        exact absurd (hp.trans hqx.symm) (hk.1 q hq)
      · have := ih hk.2 h
        simp [cget, hp]
        exact this

/-! Helper lemmas about seat lookup and update. -/

theorem getD_set_self {α : Type} (l : List α) (i : Nat) (a d : α)
    (h : i < l.length) : (l.set i a).getD i d = a := by
  simp [List.getD, List.getElem?_set_self, h]

theorem getD_set_ne {α : Type} (l : List α) (i j : Nat) (a d : α)
    (h : j ≠ i) : (l.set i a).getD j d = l.getD j d := by
  simp [List.getD, List.getElem?_set_ne (Ne.symm h)]

theorem getD_mem {α : Type} (l : List α) (i : Nat) (d : α)
    (h : i < l.length) : l.getD i d ∈ l := by
  rw [List.getD_eq_getElem l d h]
  exact List.getElem_mem h

theorem sum_map_set {α : Type} (l : List α) (f : α → Nat) (i : Nat) (x d : α)
    (h : i < l.length) :
    ((l.set i x).map f).sum + f (l.getD i d) = (l.map f).sum + f x := by
  induction l generalizing i with
  | nil => simp at h
  | cons a tl ih =>
    match i with
    | 0 => simp [List.set_cons_zero, List.getD_cons_zero]; omega
    | j + 1 =>
      have hj : j < tl.length := by simpa using h
      have hrec := ih j hj
      simp only [List.set_cons_succ, List.map_cons, List.sum_cons, List.getD_cons_succ]
      omega

theorem pget_updPlayer_self (t : Table) (i : Nat) (f : Player → Player)
    (h : i < t.players.length) : pget (updPlayer t i f) i = f (pget t i) :=
  getD_set_self t.players i (f (pget t i)) default h

theorem pget_updPlayer_ne (t : Table) (i j : Nat) (f : Player → Player)
    (h : j ≠ i) : pget (updPlayer t i f) j = pget t j :=
  getD_set_ne t.players i j (f (pget t i)) default h

theorem updPlayer_length (t : Table) (i : Nat) (f : Player → Player) :
    (updPlayer t i f).players.length = t.players.length := by
  simp [updPlayer]

theorem updPlayer_deck (t : Table) (i : Nat) (f : Player → Player) :
    (updPlayer t i f).deck = t.deck := rfl

theorem updPlayer_oob (t : Table) (i : Nat) (f : Player → Player)
    (h : t.players.length ≤ i) : updPlayer t i f = t := by
  rw [updPlayer, List.set_eq_of_length_le h]

theorem pget_updPlayer_cards (t : Table) (i : Nat) (f : Player → Player)
    (hf : ∀ q, (f q).cards = q.cards) (j : Nat) :
    (pget (updPlayer t i f) j).cards = (pget t j).cards := by
  by_cases hrange : i < t.players.length
  · by_cases hij : j = i
    · subst hij
      rw [pget_updPlayer_self t j _ hrange, hf]
    · rw [pget_updPlayer_ne t i j _ hij]
  · rw [updPlayer_oob t i f (by omega)]

theorem pget_updPlayer_coins (t : Table) (i : Nat) (f : Player → Player)
    (hf : ∀ q, (f q).coins = q.coins) (j : Nat) :
    (pget (updPlayer t i f) j).coins = (pget t j).coins := by
  by_cases hrange : i < t.players.length
  · by_cases hij : j = i
    · subst hij
      rw [pget_updPlayer_self t j _ hrange, hf]
    · rw [pget_updPlayer_ne t i j _ hij]
  · rw [updPlayer_oob t i f (by omega)]

theorem pget_updCoins_cards (t : Table) (i : Nat) (f : Int → Int) (j : Nat) :
    (pget (updCoins t i f) j).cards = (pget t j).cards := by
  rw [updCoins]
  exact pget_updPlayer_cards t i (fun p => { p with coins := f p.coins }) (fun _ => rfl) j

theorem pget_updCoins_self (t : Table) (i : Nat) (f : Int → Int)
    (h : i < t.players.length) : (pget (updCoins t i f) i).coins = f (pget t i).coins := by
  rw [updCoins, pget_updPlayer_self t i _ h]

theorem pget_updCoins_ne (t : Table) (i j : Nat) (f : Int → Int)
    (h : j ≠ i) : pget (updCoins t i f) j = pget t j :=
  pget_updPlayer_ne t i j _ h

/-! Inversion lemmas for the table-level card operations. -/

theorem tdraw_eq_some (t : Table) (i idx : Nat) (t1 : Table)
    (h : tdraw t i idx = some t1) :
    idx + 1 < (celements t.deck).length ∧
    t1 = ⟨t.players.set i
            { pget t i with
                cards := cincr (pget t i).cards ((celements t.deck).getD idx CARD.AMBASSADOR) },
          cdecrDel t.deck ((celements t.deck).getD idx CARD.AMBASSADOR)⟩ := by
  rw [tdraw, Player.draw, drawCard] at h
  by_cases hlen : idx + 1 < (celements t.deck).length
  · simp only [hlen, if_pos] at h
    simp only [Option.some.injEq] at h
    exact ⟨hlen, h.symm⟩
  · simp [hlen] at h

theorem tputback_eq_some (t : Table) (i : Nat) (card : CARD) (t1 : Table)
    (h : tputback t i card = some t1) :
    cmem (pget t i).cards card = true ∧
    t1 = ⟨t.players.set i { pget t i with cards := cdecrDel (pget t i).cards card },
          cincr t.deck card⟩ := by
  rw [tputback, Player.putback] at h
  by_cases hm : cmem (pget t i).cards card
  · simp only [hm, if_pos] at h
    simp only [Option.some.injEq] at h
    exact ⟨hm, h.symm⟩
  · simp [hm] at h

theorem tlose_eq_some (t : Table) (i : Nat) (card : CARD) (t1 : Table)
    (h : tlose t i card = some t1) :
    cmem (pget t i).cards card = true ∧
    t1 = ⟨t.players.set i { pget t i with cards := cdecrDel (pget t i).cards card },
          t.deck⟩ := by
  rw [tlose, Player.lose] at h
  by_cases hm : cmem (pget t i).cards card
  · simp only [hm, if_pos] at h
    simp only [Option.some.injEq] at h
    exact ⟨hm, h.symm⟩
  · simp [hm] at h

theorem tlose_as_updPlayer (t : Table) (i : Nat) (card : CARD) (t1 : Table)
    (h : tlose t i card = some t1) :
    t1 = updPlayer t i (fun q => { q with cards := cdecrDel q.cards card }) := by
  obtain ⟨-, rfl⟩ := tlose_eq_some t i card t1 h
  rfl

theorem tlose_coins (t : Table) (i : Nat) (card : CARD) (t1 : Table)
    (h : tlose t i card = some t1) (j : Nat) :
    (pget t1 j).coins = (pget t j).coins := by
  rw [tlose_as_updPlayer t i card t1 h]
  exact pget_updPlayer_coins t i
    (fun q => { q with cards := cdecrDel q.cards card }) (fun _ => rfl) j

theorem tlose_deck (t : Table) (i : Nat) (card : CARD) (t1 : Table)
    (h : tlose t i card = some t1) : t1.deck = t.deck := by
  rw [tlose_as_updPlayer t i card t1 h, updPlayer_deck]

/-! Coin bookkeeping of `resolve_steal`. -/

theorem resolve_steal_coins (t : Table) (act : ActInfo)
    (hne : act.actor ≠ act.target)
    (ha : act.actor < t.players.length) (ht : act.target < t.players.length) :
    (pget (resolve_steal t act) act.actor).coins
        = (pget t act.actor).coins + min 2 (pget t act.target).coins ∧
    (pget (resolve_steal t act) act.target).coins
        = (pget t act.target).coins - min 2 (pget t act.target).coins := by
  rw [resolve_steal]
  constructor
  · rw [pget_updCoins_ne _ act.target act.actor _ hne]
    rw [pget_updCoins_self _ _ _ ha]
  · rw [pget_updCoins_self _ _ _ (by simpa [updCoins, updPlayer] using ht)]
    rw [(pget_updCoins_ne t act.actor act.target _ (Ne.symm hne) :)]

theorem resolve_steal_cards (t : Table) (act : ActInfo) (j : Nat) :
    (pget (resolve_steal t act) j).cards = (pget t j).cards := by
  rw [resolve_steal, pget_updCoins_cards, pget_updCoins_cards]

theorem resolve_steal_deck (t : Table) (act : ActInfo) :
    (resolve_steal t act).deck = t.deck := rfl

theorem tputback_isSome (t : Table) (i : Nat) (card : CARD)
    (h : cmem (pget t i).cards card = true) :
    tputback t i card
      = some ⟨t.players.set i { pget t i with cards := cdecrDel (pget t i).cards card },
              cincr t.deck card⟩ := by
  rw [tputback, Player.putback, if_pos h]

theorem tlose_length (t : Table) (i : Nat) (card : CARD) (t1 : Table)
    (h : tlose t i card = some t1) : t1.players.length = t.players.length := by
  rw [tlose_as_updPlayer t i card t1 h, updPlayer_length]

theorem tdraw_ctotal (t : Table) (i idx : Nat) (t1 : Table)
    (hi : i < t.players.length) (h : tdraw t i idx = some t1) :
    ctotal (pget t1 i).cards = ctotal (pget t i).cards + 1 := by
  obtain ⟨hlen, rfl⟩ := tdraw_eq_some t i idx t1 h
  rw [show pget (⟨t.players.set i
      { pget t i with
          cards := cincr (pget t i).cards ((celements t.deck).getD idx CARD.AMBASSADOR) },
      cdecrDel t.deck ((celements t.deck).getD idx CARD.AMBASSADOR)⟩ : Table) i
      = { pget t i with
          cards := cincr (pget t i).cards ((celements t.deck).getD idx CARD.AMBASSADOR) }
    from getD_set_self t.players i _ default hi]
  dsimp only
  rw [ctotal_cincr]

theorem tputback_ctotal (t : Table) (i : Nat) (card : CARD) (t1 : Table)
    (hi : i < t.players.length) (hne : cget (pget t i).cards card ≠ 0)
    (h : tputback t i card = some t1) :
    ctotal (pget t1 i).cards + 1 = ctotal (pget t i).cards := by
  obtain ⟨hm, rfl⟩ := tputback_eq_some t i card t1 h
  rw [show pget (⟨t.players.set i { pget t i with cards := cdecrDel (pget t i).cards card },
      cincr t.deck card⟩ : Table) i
      = { pget t i with cards := cdecrDel (pget t i).cards card }
    from getD_set_self t.players i _ default hi]
  dsimp only
  exact ctotal_cdecrDel (pget t i).cards card hne

theorem tputback_length (t : Table) (i : Nat) (card : CARD) (t1 : Table)
    (h : tputback t i card = some t1) : t1.players.length = t.players.length := by
  obtain ⟨-, rfl⟩ := tputback_eq_some t i card t1 h
  simp

theorem next_alive_congr (t t' : Table)
    (hlen : t'.players.length = t.players.length)
    (hal : ∀ k, (pget t' k).aliveB = (pget t k).aliveB) (p : Nat) :
    next_alive t' p = next_alive t p := by
  rw [next_alive, next_alive, hlen]
  congr 1
  funext j
  simp only [hal]

theorem aliveB_updFlag (t : Table) (p : Nat) (f : Player → Player)
    (hf : ∀ q, (f q).cards = q.cards) (k : Nat) :
    (pget (updPlayer t p f) k).aliveB = (pget t k).aliveB := by
  rw [Player.aliveB, Player.aliveB, pget_updPlayer_cards t p f hf k]

theorem next_alive_updFlag (t : Table) (p : Nat) (f : Player → Player)
    (hf : ∀ q, (f q).cards = q.cards) (p2 : Nat) :
    next_alive (updPlayer t p f) p2 = next_alive t p2 :=
  next_alive_congr t (updPlayer t p f) (updPlayer_length t p f) (aliveB_updFlag t p f hf) p2

/-! No transition of any turn state produces `GameOver`. -/

theorem stepStart_no_gameOver (t : Table) (i : Nat) (a : Action) (tgt : Nat)
    (t2 : Table) : stepStart t i a tgt ≠ some (t2, GState.gameOver) := by
  intro h
  simp only [stepStart] at h
  repeat' split at h
  all_goals simp_all

theorem stepChallenge_no_gameOver (t : Table) (p : Nat) (act : ActInfo)
    (a : Action) (r1 r2 : Nat) (t2 : Table) :
    stepChallenge t p act a r1 r2 ≠ some (t2, GState.gameOver) := by
  intro h
  simp only [stepChallenge] at h
  repeat' split at h
  all_goals simp_all

theorem stepChallengeResolve_no_gameOver (t : Table) (p : Nat) (act : ActInfo)
    (chl : ChallengeInfo) (a : Action) (r1 r2 : Nat) (t2 : Table) :
    stepChallengeResolve t p act chl a r1 r2 ≠ some (t2, GState.gameOver) := by
  intro h
  simp only [stepChallengeResolve] at h
  repeat' split at h
  all_goals simp_all

theorem stepForeignAidBlock_no_gameOver (t : Table) (p : Nat) (act : ActInfo)
    (chl : Option ChallengeInfo) (a : Action) (t2 : Table) :
    stepForeignAidBlock t p act chl a ≠ some (t2, GState.gameOver) := by
  intro h
  simp only [stepForeignAidBlock] at h
  repeat' split at h
  all_goals simp_all

theorem stepTargetBlock_no_gameOver (t : Table) (p : Nat) (act : ActInfo)
    (chl : Option ChallengeInfo) (a : Action) (t2 : Table) :
    stepTargetBlock t p act chl a ≠ some (t2, GState.gameOver) := by
  intro h
  simp only [stepTargetBlock] at h
  repeat' split at h
  all_goals simp_all

theorem stepBlockChallenge_no_gameOver (t : Table) (p : Nat) (blk : BlockInfo)
    (act : ActInfo) (chl : Option ChallengeInfo) (a : Action) (r1 : Nat)
    (t2 : Table) :
    stepBlockChallenge t p blk act chl a r1 ≠ some (t2, GState.gameOver) := by
  intro h
  simp only [stepBlockChallenge] at h
  repeat' split at h
  all_goals simp_all

theorem stepBlockChallengeResolve_no_gameOver (t : Table) (p : Nat)
    (blk : BlockInfo) (bchl : ChallengeInfo) (act : ActInfo)
    (chl : Option ChallengeInfo) (a : Action) (t2 : Table) :
    stepBlockChallengeResolve t p blk bchl act chl a ≠ some (t2, GState.gameOver) := by
  intro h
  simp only [stepBlockChallengeResolve] at h
  repeat' split at h
  all_goals simp_all

theorem stepActionResolve_no_gameOver (t : Table) (p : Nat) (act : ActInfo)
    (chl : Option ChallengeInfo) (blk : Option BlockInfo)
    (bchl : Option ChallengeInfo) (a : Action) (t2 : Table) :
    stepActionResolve t p act chl blk bchl a ≠ some (t2, GState.gameOver) := by
  intro h
  simp only [stepActionResolve] at h
  repeat' split at h
  all_goals simp_all

theorem stepExchangeResolve_no_gameOver (t : Table) (p : Nat) (act : ActInfo)
    (chl : Option ChallengeInfo) (a : Action) (t2 : Table) :
    stepExchangeResolve t p act chl a ≠ some (t2, GState.gameOver) := by
  intro h
  simp only [stepExchangeResolve] at h
  repeat' split at h
  all_goals simp_all

theorem stepExchangeTwoResolve_no_gameOver (t : Table) (p : Nat) (act : ActInfo)
    (chl : Option ChallengeInfo) (a : Action) (t2 : Table) :
    stepExchangeTwoResolve t p act chl a ≠ some (t2, GState.gameOver) := by
  intro h
  simp only [stepExchangeTwoResolve] at h
  repeat' split at h
  all_goals simp_all

/-! The claims. -/

/-- C1 counterexample: in this `ChallengeResolve` state the Steal target
dies losing their last card, and — contrary to the claim that the action
is abandoned with no coin transfer — the code resolves the steal: the
actor goes from 2 to 4 coins and the dead target from 3 to 1. -/
theorem c1_steal_dead_target_cex :
    stepChallengeResolve c1t 1 c1act c1chl .LOSE_CONTESSA 0 0
      = some (c1after, .endTurn c1act (some c1chl) none none) ∧
    (pget c1after 1).aliveB = false ∧
    (pget c1t 0).coins = 2 ∧ (pget c1t 1).coins = 3 ∧
    (pget c1after 0).coins = 4 ∧ (pget c1after 1).coins = 1 := by
  decide

/-- C1 (amended): an in-flight Steal whose target is no longer alive when
the steal resolves is NOT abandoned: both after the action-challenge
round (`ChallengeResolve`, dead-target branch) and after a defeated block
(`BlockChallengeResolve`, which resolves the steal regardless of the
target's aliveness), `resolve_steal` runs — `min(2, target.coins)` coins
move from the (possibly dead) target to the actor — and the turn ends.
(Only Assassinate with a dead target is abandoned without effect.) -/
theorem c1_steal_dead_target_resolves :
    (∀ (t : Table) (p : Nat) (act : ActInfo) (chl : ChallengeInfo) (a : Action)
        (card : CARD) (t1 : Table) (r1 r2 : Nat),
        a.card = some card → tlose t p card = some t1 →
        chl.loser ≠ act.actor → act.action = .STEAL →
        (pget t1 act.target).aliveB = false →
        act.actor ≠ act.target → act.actor < t.players.length →
        act.target < t.players.length →
        stepChallengeResolve t p act chl a r1 r2
          = some (resolve_steal t1 act, .endTurn act (some chl) none none) ∧
        (pget (resolve_steal t1 act) act.actor).coins
          = (pget t act.actor).coins + min 2 (pget t act.target).coins ∧
        (pget (resolve_steal t1 act) act.target).coins
          = (pget t act.target).coins - min 2 (pget t act.target).coins) ∧
    (∀ (t : Table) (p : Nat) (blk : BlockInfo) (bchl : ChallengeInfo)
        (act : ActInfo) (chl : Option ChallengeInfo) (a : Action)
        (card : CARD) (t1 : Table),
        a.card = some card → tlose t p card = some t1 →
        bchl.loser ≠ bchl.challenger → act.action = .STEAL →
        act.actor ≠ act.target → act.actor < t.players.length →
        act.target < t.players.length →
        stepBlockChallengeResolve t p blk bchl act chl a
          = some (resolve_steal t1 act, .endTurn act chl (some blk) (some bchl)) ∧
        (pget (resolve_steal t1 act) act.actor).coins
          = (pget t act.actor).coins + min 2 (pget t act.target).coins ∧
        (pget (resolve_steal t1 act) act.target).coins
          = (pget t act.target).coins - min 2 (pget t act.target).coins) := by
  constructor
  · intro t p act chl a card t1 r1 r2 hcard hlose hloser hsteal hdead hne ha ht
    have hlen := tlose_length t p card t1 hlose
    have hcoins := fun j => tlose_coins t p card t1 hlose j
    have hstep : stepChallengeResolve t p act chl a r1 r2
        = some (resolve_steal t1 act, .endTurn act (some chl) none none) := by
      simp only [stepChallengeResolve, hcard, hlose]
      rw [if_neg hloser, hsteal]
      rw [if_neg (by decide : ¬ (Action.STEAL = Action.TAX))]
      rw [if_neg (by decide : ¬ (Action.STEAL = Action.EXCHANGE))]
      rw [if_pos ⟨rfl, by simp [hdead]⟩]
    refine ⟨hstep, ?_, ?_⟩
    · obtain ⟨h1, -⟩ := resolve_steal_coins t1 act hne (by omega) (by omega)
      rw [h1, hcoins act.actor, hcoins act.target]
    · obtain ⟨-, h2⟩ := resolve_steal_coins t1 act hne (by omega) (by omega)
      rw [h2, hcoins act.target]
  · intro t p blk bchl act chl a card t1 hcard hlose hloser hsteal hne ha ht
    have hlen := tlose_length t p card t1 hlose
    have hcoins := fun j => tlose_coins t p card t1 hlose j
    have hstep : stepBlockChallengeResolve t p blk bchl act chl a
        = some (resolve_steal t1 act, .endTurn act chl (some blk) (some bchl)) := by
      simp only [stepBlockChallengeResolve, hcard, hlose]
      rw [if_neg hloser, hsteal]
      rw [if_neg (by decide : ¬ (Action.STEAL = Action.FOREIGN_AID))]
      rw [if_pos rfl]
    refine ⟨hstep, ?_, ?_⟩
    · obtain ⟨h1, -⟩ := resolve_steal_coins t1 act hne (by omega) (by omega)
      rw [h1, hcoins act.actor, hcoins act.target]
    · obtain ⟨-, h2⟩ := resolve_steal_coins t1 act hne (by omega) (by omega)
      rw [h2, hcoins act.target]

/-- C1 witness: both amended branches evaluated at concrete positions. -/
theorem c1_steal_dead_target_resolves_witness :
    (stepChallengeResolve c1t 1 c1act c1chl .LOSE_CONTESSA 0 0
      = some (resolve_steal c1mid c1act, .endTurn c1act (some c1chl) none none) ∧
     (pget (resolve_steal c1mid c1act) c1act.actor).coins
       = (pget c1t c1act.actor).coins + min 2 (pget c1t c1act.target).coins ∧
     (pget (resolve_steal c1mid c1act) c1act.target).coins
       = (pget c1t c1act.target).coins - min 2 (pget c1t c1act.target).coins) ∧
    (stepBlockChallengeResolve c1bt 1 c1blk c1bchl c1act none .LOSE_CONTESSA
      = some (resolve_steal c1bmid c1act, .endTurn c1act none (some c1blk) (some c1bchl)) ∧
     (pget (resolve_steal c1bmid c1act) c1act.actor).coins
       = (pget c1bt c1act.actor).coins + min 2 (pget c1bt c1act.target).coins ∧
     (pget (resolve_steal c1bmid c1act) c1act.target).coins
       = (pget c1bt c1act.target).coins - min 2 (pget c1bt c1act.target).coins) :=
  ⟨c1_steal_dead_target_resolves.1 c1t 1 c1act c1chl .LOSE_CONTESSA CARD.CONTESSA c1mid 0 0
     (by decide) (by decide) (by decide) (by decide) (by decide) (by decide)
     (by decide) (by decide),
   c1_steal_dead_target_resolves.2 c1bt 1 c1blk c1bchl c1act none .LOSE_CONTESSA
     CARD.CONTESSA c1bmid
     (by decide) (by decide) (by decide) (by decide) (by decide) (by decide) (by decide)⟩

/-- C2: in a `Start` state whose player has at least 10 coins and at
least one living other player, the legal moves are exactly one Coup per
living other player (offsets counted along the ring) and nothing else. -/
theorem c2_must_coup (t : Table) (i : Nat)
    (hc : 10 ≤ (pget t i).coins) (_hsome : aliveOthers t i ≠ []) :
    (∀ x ∈ startActionMask t i, x.1 = Action.COUP) ∧
    (∀ j, (Action.COUP, j) ∈ startActionMask t i ↔ j ∈ aliveOthers t i) ∧
    (∀ j, j ∈ aliveOthers t i ↔
        (1 ≤ j ∧ j < t.players.length ∧
         (pget t ((i + j) % t.players.length)).aliveB = true)) ∧
    (startActionMask t i).Nodup := by
  have h7 : 7 ≤ (pget t i).coins := by omega
  have hmask : startActionMask t i = (aliveOthers t i).map (fun j => (Action.COUP, j)) := by
    rw [startActionMask]
    exact if_pos ⟨h7, hc⟩
  have hnodup : (aliveOthers t i).Nodup := by
    apply List.Nodup.filter
    apply List.Nodup.map
    · intro a b hab
      simp only [Nat.add_right_cancel_iff] at hab
      exact hab
    · exact List.nodup_range _
  refine ⟨?_, ?_, ?_, ?_⟩
  · intro x hx
    rw [hmask] at hx
    rw [List.mem_map] at hx
    obtain ⟨j, -, rfl⟩ := hx
    rfl
  · intro j
    rw [hmask, List.mem_map]
    constructor
    · rintro ⟨a, ha, heq⟩
      rw [Prod.mk.injEq] at heq
      rwa [← heq.2]
    · intro hj
      exact ⟨j, hj, rfl⟩
  · intro j
    rw [aliveOthers, List.mem_filter, ringOffsets, List.mem_map]
    constructor
    · rintro ⟨⟨k, hk, rfl⟩, hal⟩
      rw [List.mem_range] at hk
      exact ⟨by omega, by omega, hal⟩
    · rintro ⟨h1, h2, hal⟩
      exact ⟨⟨j - 1, by rw [List.mem_range]; omega, by omega⟩, hal⟩
  · rw [hmask]
    apply List.Nodup.map
    · intro a b hab
      rw [Prod.mk.injEq] at hab
      exact hab.2
    · exact hnodup

/-- C2 witness: at `c2t` (seat 0 with 10 coins, seat 1 alive, seat 2
eliminated) the mask is exactly one Coup against seat 1. -/
theorem c2_must_coup_witness :
    ((Action.COUP, 1) ∈ startActionMask c2t 0 ↔ 1 ∈ aliveOthers c2t 0) ∧
    (startActionMask c2t 0).Nodup ∧
    startActionMask c2t 0 = [(Action.COUP, 1)] :=
  ⟨(c2_must_coup c2t 0 (by decide) (by decide)).2.1 1,
   (c2_must_coup c2t 0 (by decide) (by decide)).2.2.2,
   by decide⟩

/-- C3 counterexample: when seat 1 blocks seat 0's Foreign Aid, the
resulting `BlockChallenge` round's first responder is seat 1 — the
blocker itself — contradicting the claim that the round starts after the
blocker and excludes the blocker. -/
theorem c3_blocker_first_responder_cex :
    stepForeignAidBlock c3t 1 c3act none .BLOCK_FOREIGN_AID
      = some (c3t, .blockChallenge 1 ⟨1, .BLOCK_FOREIGN_AID⟩ c3act none) := by
  decide

/-- C3 (amended): the `BlockChallenge` round starts WITH the blocker as
its first responder (both for `ForeignAidBlock` and `TargetBlock`
declarations); each pass then advances to the next alive seat, and the
round ends (block stands) when the passer's next alive seat is the actor
— so the actor, not the blocker, is the seat excluded from the round. -/
theorem c3_block_challenge_order :
    (∀ (t : Table) (p : Nat) (act : ActInfo) (chl : Option ChallengeInfo),
        stepForeignAidBlock t p act chl .BLOCK_FOREIGN_AID
          = some (t, .blockChallenge p ⟨p, .BLOCK_FOREIGN_AID⟩ act chl)) ∧
    (∀ (t : Table) (p : Nat) (act : ActInfo) (chl : Option ChallengeInfo) (a : Action),
        a ≠ .BLOCK_PASS →
        stepTargetBlock t p act chl a = some (t, .blockChallenge p ⟨p, a⟩ act chl)) ∧
    (∀ (t : Table) (p : Nat) (blk : BlockInfo) (act : ActInfo)
        (chl : Option ChallengeInfo) (r1 : Nat),
        next_alive t p = some act.actor →
        stepBlockChallenge t p blk act chl .CHALLENGE_PASS r1
          = some (updPlayer t p (fun q => { q with challenge_passed := true }),
                  .endTurn act chl (some blk) none)) ∧
    (∀ (t : Table) (p : Nat) (blk : BlockInfo) (act : ActInfo)
        (chl : Option ChallengeInfo) (r1 j : Nat),
        next_alive t p = some j → j ≠ act.actor →
        stepBlockChallenge t p blk act chl .CHALLENGE_PASS r1
          = some (updPlayer t p (fun q => { q with challenge_passed := true }),
                  .blockChallenge j blk act chl)) := by
  refine ⟨?_, ?_, ?_, ?_⟩
  · intro t p act chl
    rw [stepForeignAidBlock]
    rw [if_neg (by decide : ¬ (Action.BLOCK_FOREIGN_AID = Action.BLOCK_PASS))]
    rw [if_pos rfl]
  · intro t p act chl a ha
    rw [stepTargetBlock, if_neg ha]
  · intro t p blk act chl r1 hna
    have hupd := next_alive_updFlag t p
      (fun q => { q with challenge_passed := true }) (fun q => rfl) p
    simp only [stepBlockChallenge, hupd, hna]
    simp
  · intro t p blk act chl r1 j hna hne
    have hupd := next_alive_updFlag t p
      (fun q => { q with challenge_passed := true }) (fun q => rfl) p
    simp only [stepBlockChallenge, hupd, hna]
    simp [hne]

/-- C3 witness: the blocker (seat 1) is the first responder against their
own Foreign Aid block, and their pass hands the round to seat 2. -/
theorem c3_block_challenge_order_witness :
    (stepForeignAidBlock c3t 1 c3act none .BLOCK_FOREIGN_AID
      = some (c3t, .blockChallenge 1 ⟨1, .BLOCK_FOREIGN_AID⟩ c3act none)) ∧
    (stepBlockChallenge c3t 1 ⟨1, .BLOCK_FOREIGN_AID⟩ c3act none .CHALLENGE_PASS 0
      = some (updPlayer c3t 1 (fun q => { q with challenge_passed := true }),
              .blockChallenge 2 ⟨1, .BLOCK_FOREIGN_AID⟩ c3act none)) :=
  ⟨c3_block_challenge_order.1 c3t 1 c3act none,
   c3_block_challenge_order.2.2.2 c3t 1 ⟨1, .BLOCK_FOREIGN_AID⟩ c3act none 0 2
     (by decide) (by decide)⟩

/-- C4: the off-by-one in `card.draw` (`np.random.randint(0, len(cards) - 1)`
with an exclusive upper bound): on the non-empty one-card deck `c4deck1`
every random outcome fails (the source raises `ValueError`), and on the
two-card deck `c4deck2` the last card (the Duke, a member of the deck)
is drawn under no random outcome — refuting both "fails iff the deck is
exhausted" and "every card currently in the deck has some outcome under
which it is drawn". -/
theorem c4_draw_never_last_card :
    ctotal c4deck1 = 1 ∧
    (∀ idx, drawCard c4deck1 idx = none) ∧
    cmem c4deck2 CARD.DUKE = true ∧
    (∀ idx, drawCard c4deck2 idx = none ∨
        drawCard c4deck2 idx = some (CARD.AMBASSADOR, [(CARD.DUKE, 1)])) := by
  refine ⟨by decide, ?_, by decide, ?_⟩
  · intro idx
    have hlen : (celements c4deck1).length = 1 := rfl
    rw [drawCard]
    simp only [hlen]
    rw [if_neg (by omega)]
  · intro idx
    match idx with
    | 0 => exact Or.inr (by decide)
    | n + 1 =>
      left
      have hlen : (celements c4deck2).length = 2 := rfl
      rw [drawCard]
      simp only [hlen]
      rw [if_neg (by omega)]

theorem handsSum_set (t : Table) (i : Nat) (q : Player) (r : CARD)
    (h : i < t.players.length) :
    ((t.players.set i q).map (fun p => cget p.cards r)).sum + cget (pget t i).cards r
      = (t.players.map (fun p => cget p.cards r)).sum + cget q.cards r := by
  have h2 := sum_map_set t.players (fun p => cget p.cards r) i q default h
  simpa [pget] using h2

/-- C5: per-role conservation: for every role `r` the quantity
`deck count + held copies + cumulative lose count` is preserved by every
operation — a successful draw moves one card deck→hand, a successful
putback moves one card hand→deck, and a successful lose removes exactly
one card from the hand (deck untouched) while the lose counter absorbs
it. -/
theorem c5_conservation :
    (∀ (t : Table) (i idx : Nat) (t1 : Table) (lost : CARD → Nat) (r : CARD),
        KeysOk t.deck → i < t.players.length → tdraw t i idx = some t1 →
        totalQty t1 lost r = totalQty t lost r) ∧
    (∀ (t : Table) (i : Nat) (card : CARD) (t1 : Table) (lost : CARD → Nat) (r : CARD),
        KeysOk (pget t i).cards → CntPos (pget t i).cards → i < t.players.length →
        tputback t i card = some t1 →
        totalQty t1 lost r = totalQty t lost r) ∧
    (∀ (t : Table) (i : Nat) (card : CARD) (t1 : Table) (lost : CARD → Nat) (r : CARD),
        KeysOk (pget t i).cards → CntPos (pget t i).cards → i < t.players.length →
        tlose t i card = some t1 →
        t1.deck = t.deck ∧ totalQty t1 (bump lost card) r = totalQty t lost r) := by
  refine ⟨?_, ?_, ?_⟩
  · intro t i idx t1 lost r hkeys hi hdraw
    obtain ⟨hlen, rfl⟩ := tdraw_eq_some t i idx t1 hdraw
    set c := (celements t.deck).getD idx CARD.AMBASSADOR with hcdef
    have hmem : c ∈ celements t.deck := getD_mem _ idx _ (by omega)
    have hdpos : 0 < cget t.deck c := cget_pos_of_mem_celements _ _ hkeys hmem
    have hsum := handsSum_set t i { pget t i with cards := cincr (pget t i).cards c } r hi
    dsimp only at hsum
    simp only [totalQty, handsSum]
    by_cases hr : r = c
    · have hd : cget (cdecrDel t.deck c) r + 1 = cget t.deck r := by
        rw [hr]
        exact cget_cdecrDel_self t.deck c hkeys (by omega)
      have hh : cget (cincr (pget t i).cards c) r = cget (pget t i).cards r + 1 := by
        rw [hr]
        exact cget_cincr_self (pget t i).cards c
      rw [hh] at hsum
      omega
    · have hd := cget_cdecrDel_ne t.deck c r hr
      have hh := cget_cincr_ne (pget t i).cards c r hr
      rw [hh] at hsum
      omega
  · intro t i card t1 lost r hkeys hpos hi hput
    obtain ⟨hm, rfl⟩ := tputback_eq_some t i card t1 hput
    have hp : 0 < cget (pget t i).cards card := cget_pos_of_cmem _ _ hpos hm
    have hsum := handsSum_set t i
      { pget t i with cards := cdecrDel (pget t i).cards card } r hi
    dsimp only at hsum
    simp only [totalQty, handsSum]
    by_cases hr : r = card
    · have hd : cget (cincr t.deck card) r = cget t.deck r + 1 := by
        rw [hr]
        exact cget_cincr_self t.deck card
      have hh : cget (cdecrDel (pget t i).cards card) r + 1 = cget (pget t i).cards r := by
        rw [hr]
        exact cget_cdecrDel_self (pget t i).cards card hkeys (by omega)
      omega
    · have hd := cget_cincr_ne t.deck card r hr
      have hh := cget_cdecrDel_ne (pget t i).cards card r hr
      rw [hh] at hsum
      omega
  · intro t i card t1 lost r hkeys hpos hi hlose
    obtain ⟨hm, rfl⟩ := tlose_eq_some t i card t1 hlose
    have hp : 0 < cget (pget t i).cards card := cget_pos_of_cmem _ _ hpos hm
    have hsum := handsSum_set t i
      { pget t i with cards := cdecrDel (pget t i).cards card } r hi
    dsimp only at hsum
    refine ⟨rfl, ?_⟩
    simp only [totalQty, handsSum, bump]
    by_cases hr : r = card
    · have hh : cget (cdecrDel (pget t i).cards card) r + 1 = cget (pget t i).cards r := by
        rw [hr]
        exact cget_cdecrDel_self (pget t i).cards card hkeys (by omega)
      rw [if_pos hr]
      omega
    · have hh := cget_cdecrDel_ne (pget t i).cards card r hr
      rw [hh] at hsum
      rw [if_neg hr]
      omega

/-- C5 witness: conservation checked on `c5t` for a draw (Captain), a
putback (Contessa) and a lose (Duke). -/
theorem c5_conservation_witness :
    totalQty c5d (fun _ => 0) CARD.CAPTAIN = totalQty c5t (fun _ => 0) CARD.CAPTAIN ∧
    totalQty c5pb (fun _ => 0) CARD.CONTESSA = totalQty c5t (fun _ => 0) CARD.CONTESSA ∧
    totalQty c5l (bump (fun _ => 0) CARD.DUKE) CARD.DUKE
      = totalQty c5t (fun _ => 0) CARD.DUKE :=
  ⟨c5_conservation.1 c5t 0 0 c5d (fun _ => 0) CARD.CAPTAIN
     (by decide) (by decide) (by decide),
   c5_conservation.2.1 c5t 1 CARD.CONTESSA c5pb (fun _ => 0) CARD.CONTESSA
     (by decide) (by decide) (by decide) (by decide),
   (c5_conservation.2.2 c5t 0 CARD.DUKE c5l (fun _ => 0) CARD.DUKE
     (by decide) (by decide) (by decide) (by decide)).2⟩

/-- C6 counterexample: the actor truly holds the claimed Duke, the
challenge is called, and after the putback-and-redraw proof the actor's
hand composition HAS changed: the Duke count drops from 1 to 0 (the
replacement drawn is an Ambassador), refuting "same count of each role".
-/
theorem c6_redraw_changes_roles_cex :
    cget (pget c6t 0).cards CARD.DUKE = 1 ∧
    c6act.action.card = some CARD.DUKE ∧
    stepChallenge c6t 1 c6act .CHALLENGE_CALL 0 0
      = some (c6t2, .challengeResolve 1 c6act ⟨.action, 1, 1⟩) ∧
    cget (pget c6t2 0).cards CARD.DUKE = 0 := by
  decide

/-- C6 (amended): when a challenge is called against a role the actor
truly holds, the challenger is the computed loser — the next state is
`ChallengeResolve` with the challenger as responder — and the actor's
hand keeps the same TOTAL card count after the putback-and-redraw proof;
the per-role composition, however, may change (the redraw is a fresh
random card). -/
theorem c6_failed_challenge :
    ∀ (t : Table) (p : Nat) (act : ActInfo) (card : CARD) (t2 : Table)
      (s2 : GState) (r1 r2 : Nat),
      act.action.card = some card →
      cget (pget t act.actor).cards card ≠ 0 →
      act.actor < t.players.length →
      stepChallenge t p act .CHALLENGE_CALL r1 r2 = some (t2, s2) →
      s2 = .challengeResolve p act ⟨.action, p, p⟩ ∧
      ctotal (pget t2 act.actor).cards = ctotal (pget t act.actor).cards := by
  intro t p act card t2 s2 r1 r2 hcard hhold hrange hstep
  have hmem : cmem (pget t act.actor).cards card = true :=
    cmem_of_cget_ne_zero _ _ hhold
  rw [stepChallenge] at hstep
  rw [if_neg (by decide : ¬ (Action.CHALLENGE_CALL = Action.CHALLENGE_PASS))] at hstep
  rw [if_pos rfl] at hstep
  simp only [hcard] at hstep
  rw [if_pos hhold] at hstep
  simp only [tputback_isSome t act.actor card hmem] at hstep
  set T1 : Table := ⟨t.players.set act.actor
      { pget t act.actor with cards := cdecrDel (pget t act.actor).cards card },
      cincr t.deck card⟩ with hT1
  have hput : tputback t act.actor card = some T1 := tputback_isSome t act.actor card hmem
  cases htd : tdraw T1 act.actor r1 with
  | none => rw [htd] at hstep; exact absurd hstep (by simp)
  | some t3 =>
    rw [htd] at hstep
    rw [Option.some.injEq, Prod.mk.injEq] at hstep
    obtain ⟨rfl, rfl⟩ := hstep
    refine ⟨rfl, ?_⟩
    have hlen1 : act.actor < T1.players.length := by
      rw [tputback_length t act.actor card T1 hput]
      exact hrange
    have h1 := tputback_ctotal t act.actor card T1 hrange hhold hput
    have h2 := tdraw_ctotal T1 act.actor r1 t3 hlen1 htd
    omega

/-- C6 witness: the amended behaviour at `c6t`: challenger (seat 1) is
the loser-to-be and the actor's total hand size is preserved. -/
theorem c6_failed_challenge_witness :
    cget (pget c6t 0).cards CARD.DUKE ≠ 0 ∧
    ctotal (pget c6t2 0).cards = ctotal (pget c6t 0).cards :=
  ⟨by decide,
   (c6_failed_challenge c6t 1 c6act CARD.DUKE c6t2
      (.challengeResolve 1 c6act ⟨.action, 1, 1⟩) 0 0
      (by decide) (by decide) (by decide) (by decide)).2⟩

/-- C7: `resolve_steal` transfers exactly `min 2 c` coins where `c ≥ 0`
is the target's balance: the actor gains `min 2 c`, the target drops to
`c - min 2 c ≥ 0`, and neither any hand nor the deck changes. -/
theorem c7_resolve_steal_bound (t : Table) (act : ActInfo)
    (hne : act.actor ≠ act.target)
    (ha : act.actor < t.players.length) (ht : act.target < t.players.length)
    (_hc : 0 ≤ (pget t act.target).coins) :
    (pget (resolve_steal t act) act.actor).coins
        = (pget t act.actor).coins + min 2 (pget t act.target).coins ∧
    (pget (resolve_steal t act) act.target).coins
        = (pget t act.target).coins - min 2 (pget t act.target).coins ∧
    0 ≤ (pget (resolve_steal t act) act.target).coins ∧
    (∀ j, (pget (resolve_steal t act) j).cards = (pget t j).cards) ∧
    (resolve_steal t act).deck = t.deck := by
  obtain ⟨h1, h2⟩ := resolve_steal_coins t act hne ha ht
  refine ⟨h1, h2, ?_, fun j => resolve_steal_cards t act j, resolve_steal_deck t act⟩
  rw [h2]
  omega

/-- C7 witness: stealing from a one-coin target transfers exactly one
coin and leaves the target at zero. -/
theorem c7_resolve_steal_bound_witness :
    (pget (resolve_steal c7t c7act) c7act.actor).coins
        = (pget c7t c7act.actor).coins + min 2 (pget c7t c7act.target).coins ∧
    (pget (resolve_steal c7t c7act) 0).coins = 3 ∧
    (pget (resolve_steal c7t c7act) 1).coins = 0 :=
  ⟨(c7_resolve_steal_bound c7t c7act (by decide) (by decide) (by decide) (by decide)).1,
   by decide, by decide⟩

/-- C8 counterexample: from this `BlockChallengeResolve` position the
blocker loses their last card, leaving exactly one player alive — yet
the machine steps to `EndTurn`, not `GameOver`, and `EndTurn` has no
further transition (`step` raises): the run ends without ever reaching
`GameOver`. -/
theorem c8_no_gameOver_cex :
    stepState c8t c8s .LOSE_CONTESSA 0 0 0 = some (c8t1, c8s1) ∧
    aliveCount c8t1 = 1 ∧ c8s1 ≠ .gameOver ∧
    stepState c8t1 c8s1 .INCOME 0 0 0 = none := by
  decide

/-- C8 (amended): `GameOver` does self-loop under `step`, but it is not
reachable via the step transitions of the turn states: no transition of
any state other than `GameOver` itself ever produces `GameOver` (the
environment driver signals termination from `EndTurn` instead). -/
theorem c8_gameOver_unreachable :
    (∀ (t : Table) (s : GState) (a : Action) (tgt r1 r2 : Nat) (t2 : Table),
        stepState t s a tgt r1 r2 = some (t2, .gameOver) → s = .gameOver) ∧
    (∀ (t : Table) (a : Action) (tgt r1 r2 : Nat),
        stepState t .gameOver a tgt r1 r2 = some (t, .gameOver)) := by
  constructor
  · intro t s a tgt r1 r2 t2 h
    cases s with
    | start i => exact absurd h (stepStart_no_gameOver t i a tgt t2)
    | challenge p act => exact absurd h (stepChallenge_no_gameOver t p act a r1 r2 t2)
    | challengeResolve p act chl =>
      exact absurd h (stepChallengeResolve_no_gameOver t p act chl a r1 r2 t2)
    | foreignAidBlock p act chl =>
      exact absurd h (stepForeignAidBlock_no_gameOver t p act chl a t2)
    | targetBlock p act chl =>
      exact absurd h (stepTargetBlock_no_gameOver t p act chl a t2)
    | blockChallenge p blk act chl =>
      exact absurd h (stepBlockChallenge_no_gameOver t p blk act chl a r1 t2)
    | blockChallengeResolve p blk bchl act chl =>
      exact absurd h (stepBlockChallengeResolve_no_gameOver t p blk bchl act chl a t2)
    | actionResolve p act chl blk bchl =>
      exact absurd h (stepActionResolve_no_gameOver t p act chl blk bchl a t2)
    | exchangeResolve p act chl =>
      exact absurd h (stepExchangeResolve_no_gameOver t p act chl a t2)
    | exchangeTwoResolve p act chl =>
      exact absurd h (stepExchangeTwoResolve_no_gameOver t p act chl a t2)
    | endTurn act chl blk bchl => exact absurd h (by rw [stepState]; simp)
    | gameOver => rfl
  · intro t a tgt r1 r2
    rfl

/-- C8 witness: the self-loop at `GameOver`, and the only-predecessor
fact applied to it. -/
theorem c8_gameOver_unreachable_witness :
    GState.gameOver = GState.gameOver ∧
    stepState sampleTable .gameOver .INCOME 0 0 0 = some (sampleTable, .gameOver) :=
  ⟨c8_gameOver_unreachable.1 sampleTable .gameOver .INCOME 0 0 0 sampleTable
     (c8_gameOver_unreachable.2 sampleTable .INCOME 0 0 0),
   c8_gameOver_unreachable.2 sampleTable .INCOME 0 0 0⟩

/-- C9: evaluating each Pass at the failing input. Pass in the action
challenge round sets `challenge_passed` only, and Pass in the two block
rounds sets `block_passed` only — but Pass in the block-challenge round
sets `challenge_passed` (line 494 of `state.py`), NOT the
`block_challenge_passed` flag that the block-challenge observation
vector reads, which therefore stays all-false. -/
theorem c9_pass_flags :
    (stepChallenge c9t 1 c9tax .CHALLENGE_PASS 0 0 = some (c9t1, .challenge 2 c9tax) ∧
     (pget c9t1 1).challenge_passed = true ∧
     (pget c9t1 1).block_passed = false ∧
     (pget c9t1 1).block_challenge_passed = false) ∧
    (stepForeignAidBlock c9t 1 c9act none .BLOCK_PASS
        = some (c9t1b, .foreignAidBlock 2 c9act none) ∧
     (pget c9t1b 1).block_passed = true ∧
     (pget c9t1b 1).challenge_passed = false ∧
     (pget c9t1b 1).block_challenge_passed = false) ∧
    (stepTargetBlock c9t 1 c9steal none .BLOCK_PASS
        = some (c9tb2, .endTurn c9steal none none none) ∧
     (pget c9tb2 1).block_passed = true ∧
     (pget c9tb2 1).challenge_passed = false ∧
     (pget c9tb2 1).block_challenge_passed = false) ∧
    (stepBlockChallenge c9t 1 c9blk c9act none .CHALLENGE_PASS 0
        = some (c9t1, .blockChallenge 2 c9blk c9act none) ∧
     (pget c9t1 1).challenge_passed = true ∧
     (pget c9t1 1).block_challenge_passed = false ∧
     observe_challenge c9t1 ⟨.block, 1, 1⟩ 0
        = [false, false, false, false, true, false, false, true, false]) := by
  decide

/-- C10: `putback` and `lose` require the card to be held (the leading
`assert card in self.cards`): on an unheld card both fail before any
mutation, and on a held card each removes exactly one copy of exactly
that card from the hand, `putback` additionally adding exactly one copy
of it to the deck, with coins untouched. -/
theorem c10_putback_lose_guard :
    (∀ (p : Player) (deck : Cnt) (card : CARD), cmem p.cards card = false →
        p.putback deck card = none ∧ p.lose card = none) ∧
    (∀ (p : Player) (deck : Cnt) (card : CARD) (q : Player) (deck2 : Cnt),
        KeysOk p.cards → CntPos p.cards →
        p.putback deck card = some (q, deck2) →
        cmem p.cards card = true ∧
        cget q.cards card + 1 = cget p.cards card ∧
        (∀ r, r ≠ card → cget q.cards r = cget p.cards r) ∧
        ctotal q.cards + 1 = ctotal p.cards ∧
        cget deck2 card = cget deck card + 1 ∧
        (∀ r, r ≠ card → cget deck2 r = cget deck r) ∧
        ctotal deck2 = ctotal deck + 1 ∧ q.coins = p.coins) ∧
    (∀ (p : Player) (card : CARD) (q : Player),
        KeysOk p.cards → CntPos p.cards →
        p.lose card = some q →
        cmem p.cards card = true ∧
        cget q.cards card + 1 = cget p.cards card ∧
        (∀ r, r ≠ card → cget q.cards r = cget p.cards r) ∧
        ctotal q.cards + 1 = ctotal p.cards ∧ q.coins = p.coins) := by
  refine ⟨?_, ?_, ?_⟩
  · intro p deck card hm
    constructor
    · rw [Player.putback, if_neg (by simp [hm])]
    · rw [Player.lose, if_neg (by simp [hm])]
  · intro p deck card q deck2 hkeys hpos hput
    rw [Player.putback] at hput
    by_cases hm : cmem p.cards card
    · rw [if_pos hm] at hput
      rw [Option.some.injEq, Prod.mk.injEq] at hput
      obtain ⟨rfl, rfl⟩ := hput
      have hp : 0 < cget p.cards card := cget_pos_of_cmem _ _ hpos hm
      refine ⟨hm, ?_, ?_, ?_, ?_, ?_, ?_, rfl⟩
      · exact cget_cdecrDel_self p.cards card hkeys (by omega)
      · intro r hr
        exact cget_cdecrDel_ne p.cards card r hr
      · exact ctotal_cdecrDel p.cards card (by omega)
      · exact cget_cincr_self deck card
      · intro r hr
        exact cget_cincr_ne deck card r hr
      · exact ctotal_cincr deck card
    · rw [if_neg hm] at hput
      exact absurd hput (by simp)
  · intro p card q hkeys hpos hlost
    rw [Player.lose] at hlost
    by_cases hm : cmem p.cards card
    · rw [if_pos hm] at hlost
      rw [Option.some.injEq] at hlost
      obtain rfl := hlost.symm
      have hp : 0 < cget p.cards card := cget_pos_of_cmem _ _ hpos hm
      refine ⟨hm, ?_, ?_, ?_, rfl⟩
      · exact cget_cdecrDel_self p.cards card hkeys (by omega)
      · intro r hr
        exact cget_cdecrDel_ne p.cards card r hr
      · exact ctotal_cdecrDel p.cards card (by omega)
    · rw [if_neg hm] at hlost
      exact absurd hlost (by simp)

/-- C10 witness: both failure (Ambassador not held) and success (putback
of a Contessa, lose of the Duke) on a concrete hand and deck. -/
theorem c10_putback_lose_guard_witness :
    (c10p.putback c10deck CARD.AMBASSADOR = none ∧ c10p.lose CARD.AMBASSADOR = none) ∧
    (cmem c10p.cards CARD.CONTESSA = true ∧
     cget (⟨2, [(CARD.DUKE, 1), (CARD.CONTESSA, 1)], false, false, false⟩ : Player).cards
         CARD.CONTESSA + 1 = cget c10p.cards CARD.CONTESSA) :=
  ⟨c10_putback_lose_guard.1 c10p c10deck CARD.AMBASSADOR (by decide),
   ⟨(c10_putback_lose_guard.2.1 c10p c10deck CARD.CONTESSA
       ⟨2, [(CARD.DUKE, 1), (CARD.CONTESSA, 1)], false, false, false⟩
       [(CARD.CAPTAIN, 1), (CARD.CONTESSA, 1)]
       (by decide) (by decide) (by decide)).1,
    (c10_putback_lose_guard.2.1 c10p c10deck CARD.CONTESSA
       ⟨2, [(CARD.DUKE, 1), (CARD.CONTESSA, 1)], false, false, false⟩
       [(CARD.CAPTAIN, 1), (CARD.CONTESSA, 1)]
       (by decide) (by decide) (by decide)).2.1⟩⟩

end Coup
